import Mathlib

/-!
Verification of the job classification, per-job summarization pipeline, and
master/worker dispatch logic of `supremm/summarize_mpi.py`.

The Python source is shallowly embedded: machine numbers become `Int`/`ℚ`
(numeric literals such as `0.05` are read exactly, as rationals), Python 2
division between two ints becomes `Int.fdiv` (floor division) while division
involving a float becomes exact rational division, and every external
collaborator (the archive extractor, the analysis engine, the outputter, the
job-outcome database) is an oracle whose answer — a value or a raised
exception — is a parameter of the embedding.  Calls to collaborators and the
assignments to the `summarizeerror` variable are recorded in an event trace so
that invocation and overwrite properties can be stated.
-/

namespace Supremm

/-- The `ProcessingError` codes used by `summarizejob`
(from `supremm.errors.ProcessingError`). -/
inductive PErr
  | PARALLEL_TOO_SHORT
  | TIME_TOO_SHORT
  | INVALID_NODECOUNT
  | NO_ARCHIVES
  | RAW_ARCHIVES
  | JOB_TOO_BIG
  | TIME_TOO_LONG
  | PMLOGEXTRACT_ERROR
  | SUMMARIZATION_ERROR
  deriving DecidableEq, Repr

/-- A job record, carrying exactly the attributes `summarizejob` reads:
`job.nodecount`, `job.walltime`, `job.has_any_archives()`,
`job.has_enough_raw_archives()`, `job.end_datetime` (as epoch seconds) and
`job.jobdir`. -/
structure Job where
  nodecount : Int
  walltime : ℚ
  has_any_archives : Bool
  has_enough_raw_archives : Bool
  end_datetime : Int
  jobdir : Option String
  deriving DecidableEq, Repr

/-- The option entries `summarizejob` and the option post-processing read:
`opts['max_nodes']`, `opts['extractonly']`, `opts['dodelete']`,
`opts['force_timeout']`, `opts['tag']`. -/
structure Opts where
  max_nodes : Int
  extractonly : Bool
  dodelete : Bool
  force_timeout : Int
  tag : Option String
  deriving DecidableEq, Repr

/-- Outcome of the skip-vs-attempt decision (spec §3 `ClassificationResult`). -/
inductive Classification
  | Proceed
  | Skip (reason : PErr) (missingNodeCount : Int)
  deriving DecidableEq, Repr

/-- The skip decision chain of `summarizejob`
(`summarize_mpi.py` lines 222–265): the `if/elif` cascade that decides the
skip reason, as a pure function.  Each skip branch of the source sets
`missingnodes = job.nodecount`; the branch conditions are transcribed
verbatim (`5 * 60` kept as written). -/
def classify (job : Job) (opts : Opts) : Classification :=
  if job.nodecount > 1 ∧ job.walltime < 5 * 60 then
    .Skip .PARALLEL_TOO_SHORT job.nodecount
  else if job.walltime ≤ 180 then
    .Skip .TIME_TOO_SHORT job.nodecount
  else if job.nodecount < 1 then
    .Skip .INVALID_NODECOUNT job.nodecount
  else if ¬ job.has_any_archives then
    .Skip .NO_ARCHIVES job.nodecount
  else if ¬ job.has_enough_raw_archives then
    .Skip .RAW_ARCHIVES job.nodecount
  else if opts.max_nodes > 0 ∧ job.nodecount > opts.max_nodes then
    .Skip .JOB_TOO_BIG job.nodecount
  else if job.walltime ≥ 176400 then
    .Skip .TIME_TOO_LONG job.nodecount
  else
    .Proceed

/-- The seven skip rules in the priority order stated by the spec (§4.1),
each as a reason paired with its condition.  This list is written from the
SPEC's words, to be compared with `classify`. -/
def specRules : List (PErr × (Job → Opts → Bool)) :=
  [ (.PARALLEL_TOO_SHORT, fun job _ => job.nodecount > 1 && job.walltime < 300),
    (.TIME_TOO_SHORT, fun job _ => job.walltime ≤ 180),
    (.INVALID_NODECOUNT, fun job _ => job.nodecount < 1),
    (.NO_ARCHIVES, fun job _ => ! job.has_any_archives),
    (.RAW_ARCHIVES, fun job _ => ! job.has_enough_raw_archives),
    (.JOB_TOO_BIG, fun job opts => opts.max_nodes > 0 && job.nodecount > opts.max_nodes),
    (.TIME_TOO_LONG, fun job _ => job.walltime ≥ 176400) ]

/-- First-match evaluation of the spec's rule list: the first rule whose
condition holds gives the skip reason with `missingNodeCount = nodecount`;
a job matching no rule proceeds. -/
def specClassify (job : Job) (opts : Opts) : Classification :=
  match specRules.find? (fun r => r.2 job opts) with
  | some r => .Skip r.1 job.nodecount
  | none => .Proceed

/-- C1: classification evaluates the seven skip rules in the fixed priority
order PARALLEL_TOO_SHORT, TIME_TOO_SHORT, INVALID_NODECOUNT, NO_ARCHIVES,
RAW_ARCHIVES, JOB_TOO_BIG, TIME_TOO_LONG, first match wins; every Skip sets
`missingNodeCount = nodecount`, and a job matching no rule is `Proceed`. -/
theorem classify_eq_first_match (job : Job) (opts : Opts) :
    classify job opts = specClassify job opts := by
  have h300 : (5 * 60 : ℚ) = 300 := by norm_num
  unfold classify specClassify specRules
  rw [h300]
  by_cases h1 : job.nodecount > 1 ∧ job.walltime < 300
  · rw [if_pos h1, List.find?_cons_of_pos _
      (by simp only [Bool.and_eq_true, decide_eq_true_eq]; exact h1)]
  · rw [if_neg h1, List.find?_cons_of_neg _
      (by simp only [Bool.and_eq_true, decide_eq_true_eq]; exact h1)]
    by_cases h2 : job.walltime ≤ 180
    · rw [if_pos h2, List.find?_cons_of_pos _ (by simp only [decide_eq_true_eq]; exact h2)]
    · rw [if_neg h2, List.find?_cons_of_neg _ (by simp only [decide_eq_true_eq]; exact h2)]
      by_cases h3 : job.nodecount < 1
      · rw [if_pos h3, List.find?_cons_of_pos _ (by simp only [decide_eq_true_eq]; exact h3)]
      · rw [if_neg h3, List.find?_cons_of_neg _ (by simp only [decide_eq_true_eq]; exact h3)]
        by_cases h4 : job.has_any_archives
        · rw [if_neg (by simp [h4]), List.find?_cons_of_neg _ (by simp [h4])]
          by_cases h5 : job.has_enough_raw_archives
          · rw [if_neg (by simp [h5]), List.find?_cons_of_neg _ (by simp [h5])]
            by_cases h6 : opts.max_nodes > 0 ∧ job.nodecount > opts.max_nodes
            · rw [if_pos h6, List.find?_cons_of_pos _
                (by simp only [Bool.and_eq_true, decide_eq_true_eq]; exact h6)]
            · rw [if_neg h6, List.find?_cons_of_neg _
                (by simp only [Bool.and_eq_true, decide_eq_true_eq]; exact h6)]
              by_cases h7 : job.walltime ≥ 176400
              · rw [if_pos h7, List.find?_cons_of_pos _
                  (by simp only [decide_eq_true_eq]; exact h7)]
              · rw [if_neg h7, List.find?_cons_of_neg _
                  (by simp only [decide_eq_true_eq]; exact h7)]
                rfl
          · rw [if_pos (by simp [h5]), List.find?_cons_of_pos _ (by simp [h5])]
        · rw [if_pos (by simp [h4]), List.find?_cons_of_pos _ (by simp [h4])]

/-! ## Embedding of `summarizejob` (lines 203–326)

The per-job runner is embedded as a pure function from the job, the options
and an oracle `Env` describing each external collaborator's answer (a value
or a raised exception) to a result record that carries the Python locals
(`success`, `mergeresult`, `missingnodes`, `enough_nodes`, `summarizeerror`,
`mdata`) together with a trace of calls and error-code assignments. -/

/-- A Python 2 number as it flows through `summarizejob`: `missingnodes` is an
int in the skip branches (`missingnodes = job.nodecount`) but a float in the
extraction branch (`missingnodes = -1.0 * mergeresult`). -/
inductive PyNum
  | pint (n : Int)
  | pfloat (q : ℚ)
  deriving DecidableEq, Repr

/-- Exact value of a Python 2 number (floats read exactly, as rationals). -/
def PyNum.toQ : PyNum → ℚ
  | .pint n => (n : ℚ)
  | .pfloat q => q

/-- Python 2 division: between two ints it is floor division, with any float
operand it is true division. -/
def PyNum.div : PyNum → PyNum → PyNum
  | .pint a, .pint b => .pint (Int.fdiv a b)
  | a, b => .pfloat (a.toQ / b.toQ)

/-- A value stored in the `mdata` metadata dictionary. -/
inductive MVal
  | b (x : Bool)
  | q (x : ℚ)
  | s (x : String)
  deriving DecidableEq, Repr

/-- Observable steps of one `summarizejob` run: calls to collaborators,
assignments to the `summarizeerror` local, and the workspace removal. -/
inductive Event
  | extractCall
  | summarizeCreate
  | sProcess
  | mProcess
  | goodEnoughCall
  | setError (e : PErr)
  | markasdone (success : Bool) (err : Option PErr)
  | deleteDir
  deriving DecidableEq, Repr

/-- Oracle for the collaborators `summarizejob` calls and the ambient state it
reads: each `Except` field is the collaborator's answer (`ok` a value, or
`error` a raised exception that the runner's `try` contains). -/
structure Env where
  extract : Except Unit Int
  sprocess : Except Unit Unit
  mprocess : Except Unit Unit
  good_enough : Except Unit Bool
  markdone : Except Unit Unit
  now : Int
  mergetime : ℚ
  jobdirExists : Bool

/-- Result of the `try` block of `summarizejob` (lines 208–317): the value
returned early by the extract-only `return` (line 271) if taken, whether an
exception escaped to the `except` handler, and the values of the Python
locals when the block exited. -/
structure TryResult where
  retEarly : Option Bool
  raised : Bool
  success : Bool
  enough_nodes : Bool
  mergeresult : Option Int
  missingnodes : Option PyNum
  summarizeerror : Option PErr
  mdata : List (String × MVal)
  logged : Option (Bool × Option PErr)
  events : List Event
  deriving Repr

/-- The `mdata` key each error branch sets (lines 224–305). -/
def skipKey : PErr → String
  | .PARALLEL_TOO_SHORT => "skipped_parallel_too_short"
  | .TIME_TOO_SHORT => "skipped_too_short"
  | .INVALID_NODECOUNT => "skipped_invalid_nodecount"
  | .NO_ARCHIVES => "skipped_noarchives"
  | .RAW_ARCHIVES => "skipped_rawarchives"
  | .JOB_TOO_BIG => "skipped_job_too_big"
  | .TIME_TOO_LONG => "skipped_too_long"
  | .PMLOGEXTRACT_ERROR => "skipped_pmlogextract_error"
  | .SUMMARIZATION_ERROR => "skipped_summarization_error"

/-- The "enough nodes" test of line 279:
`0 == mergeresult or (job.nodecount != 0 and (missingnodes / job.nodecount < 0.05))`. -/
def enoughNodes (mergeresult : Int) (missingnodes : PyNum) (nodecount : Int) : Prop :=
  0 = mergeresult ∨ (nodecount ≠ 0 ∧ (missingnodes.div (.pint nodecount)).toQ < 0.05)

instance (mergeresult : Int) (missingnodes : PyNum) (nodecount : Int) :
    Decidable (enoughNodes mergeresult missingnodes nodecount) := by
  unfold enoughNodes; infer_instance

/-- Output of the decision block at lines 277–288. -/
structure DecideOut where
  enough_nodes : Bool
  raised : Bool
  summarizeerror : Option PErr
  mdata : List (String × MVal)
  events : List Event

/-- Lines 277–288: set `enough_nodes` and call `s.process()` when the
enough-nodes test passes, otherwise, when no error is set yet and the
missing-node share is at least 0.05, record `PMLOGEXTRACT_ERROR`. -/
def decideEnough (job : Job) (env : Env) (mergeresult : Int) (missingnodes : PyNum)
    (err0 : Option PErr) : DecideOut :=
  if enoughNodes mergeresult missingnodes job.nodecount then
    match env.sprocess with
    | .ok _ => { enough_nodes := true, raised := false, summarizeerror := err0,
                 mdata := [], events := [.sProcess] }
    | .error _ => { enough_nodes := true, raised := true, summarizeerror := err0,
                    mdata := [], events := [.sProcess] }
  else if err0 = none ∧ job.nodecount ≠ 0 ∧
      (missingnodes.div (.pint job.nodecount)).toQ ≥ 0.05 then
    { enough_nodes := false, raised := false, summarizeerror := some .PMLOGEXTRACT_ERROR,
      mdata := [(skipKey .PMLOGEXTRACT_ERROR, .b true)],
      events := [.setError .PMLOGEXTRACT_ERROR] }
  else
    { enough_nodes := false, raised := false, summarizeerror := err0,
      mdata := [], events := [] }

/-- Lines 290–296: the `mergetime`, `tag` and `missingnodes` metadata keys. -/
def mdataExtras (opts : Opts) (env : Env) (missingnodes : PyNum) : List (String × MVal) :=
  [("mergetime", .q env.mergetime)]
    ++ (match opts.tag with | some t => [("tag", .s t)] | none => [])
    ++ (if missingnodes.toQ > 0 then [("missingnodes", .q missingnodes.toQ)] else [])

/-- Output of the tail of the `try` block (lines 298–317). -/
structure TailOut where
  raised : Bool
  success : Bool
  summarizeerror : Option PErr
  mdata2 : List (String × MVal)
  logged : Option (Bool × Option PErr)
  events : List Event

/-- Lines 298–317: `m.process(s, mdata)`, `success = s.good_enough()`, the
`SUMMARIZATION_ERROR` branch, the grace-period `force_success` computation and
the final `dblog.markasdone(job, success or force_success, ..., summarizeerror)`. -/
def tailPhase (job : Job) (opts : Opts) (env : Env) (enough : Bool)
    (err1 : Option PErr) : TailOut :=
  match env.mprocess with
  | .error _ => { raised := true, success := false, summarizeerror := err1,
                  mdata2 := [], logged := none, events := [.mProcess] }
  | .ok _ =>
    match env.good_enough with
    | .error _ => { raised := true, success := false, summarizeerror := err1,
                    mdata2 := [], logged := none, events := [.mProcess, .goodEnoughCall] }
    | .ok g =>
      let hitSummErr : Bool := !g && enough
      let err2 := if hitSummErr then some PErr.SUMMARIZATION_ERROR else err1
      let md2 := if hitSummErr then [(skipKey .SUMMARIZATION_ERROR, MVal.b true)] else []
      let ev2 := if hitSummErr then [Event.setError .SUMMARIZATION_ERROR] else []
      let force_success : Bool :=
        !g && decide (env.now - job.end_datetime > opts.force_timeout)
      let logArgs : Bool × Option PErr := (g || force_success, err2)
      match env.markdone with
      | .ok _ =>
        { raised := false, success := g, summarizeerror := err2, mdata2 := md2,
          logged := some logArgs,
          events := [.mProcess, .goodEnoughCall] ++ ev2 ++ [.markasdone logArgs.1 logArgs.2] }
      | .error _ =>
        { raised := true, success := g, summarizeerror := err2, mdata2 := md2,
          logged := some logArgs,
          events := [.mProcess, .goodEnoughCall] ++ ev2 ++ [.markasdone logArgs.1 logArgs.2] }

/-- Continuation of the `try` block once `mergeresult`, `missingnodes`, the
error code and metadata of the classification/extraction step are known
(lines 270–317), starting with the extract-only `return` of line 271 and the
analysis-engine construction of lines 273–275. -/
def afterMerge (job : Job) (opts : Opts) (env : Env) (mergeresult : Int)
    (missingnodes : PyNum) (err0 : Option PErr) (mdata0 : List (String × MVal))
    (ev0 : List Event) : TryResult :=
  if opts.extractonly then
    { retEarly := some (decide (0 = mergeresult)), raised := false, success := false,
      enough_nodes := false, mergeresult := some mergeresult,
      missingnodes := some missingnodes, summarizeerror := err0, mdata := mdata0,
      logged := none, events := ev0 }
  else
    if (decideEnough job env mergeresult missingnodes err0).raised then
      { retEarly := none, raised := true, success := false,
        enough_nodes := (decideEnough job env mergeresult missingnodes err0).enough_nodes,
        mergeresult := some mergeresult, missingnodes := some missingnodes,
        summarizeerror := (decideEnough job env mergeresult missingnodes err0).summarizeerror,
        mdata := mdata0 ++ (decideEnough job env mergeresult missingnodes err0).mdata,
        logged := none,
        events := (ev0 ++ [Event.summarizeCreate])
          ++ (decideEnough job env mergeresult missingnodes err0).events }
    else
      { retEarly := none,
        raised := (tailPhase job opts env
          (decideEnough job env mergeresult missingnodes err0).enough_nodes
          (decideEnough job env mergeresult missingnodes err0).summarizeerror).raised,
        success := (tailPhase job opts env
          (decideEnough job env mergeresult missingnodes err0).enough_nodes
          (decideEnough job env mergeresult missingnodes err0).summarizeerror).success,
        enough_nodes := (decideEnough job env mergeresult missingnodes err0).enough_nodes,
        mergeresult := some mergeresult, missingnodes := some missingnodes,
        summarizeerror := (tailPhase job opts env
          (decideEnough job env mergeresult missingnodes err0).enough_nodes
          (decideEnough job env mergeresult missingnodes err0).summarizeerror).summarizeerror,
        mdata := mdata0 ++ (decideEnough job env mergeresult missingnodes err0).mdata
          ++ mdataExtras opts env missingnodes
          ++ (tailPhase job opts env
            (decideEnough job env mergeresult missingnodes err0).enough_nodes
            (decideEnough job env mergeresult missingnodes err0).summarizeerror).mdata2,
        logged := (tailPhase job opts env
          (decideEnough job env mergeresult missingnodes err0).enough_nodes
          (decideEnough job env mergeresult missingnodes err0).summarizeerror).logged,
        events := (ev0 ++ [Event.summarizeCreate])
          ++ (decideEnough job env mergeresult missingnodes err0).events
          ++ (tailPhase job opts env
            (decideEnough job env mergeresult missingnodes err0).enough_nodes
            (decideEnough job env mergeresult missingnodes err0).summarizeerror).events }

/-- The `try` block of `summarizejob` (lines 208–317): the skip cascade (via
`classify`) or the extraction call, then `afterMerge`. -/
def tryBlock (job : Job) (opts : Opts) (env : Env) : TryResult :=
  match classify job opts with
  | .Skip reason mn =>
      afterMerge job opts env 1 (.pint mn) (some reason)
        [(skipKey reason, .b true)] [.setError reason]
  | .Proceed =>
      match env.extract with
      | .ok r => afterMerge job opts env r (.pfloat (-(r : ℚ))) none [] [.extractCall]
      | .error _ =>
          { retEarly := none, raised := true, success := false, enough_nodes := false,
            mergeresult := none, missingnodes := none, summarizeerror := none,
            mdata := [], logged := none, events := [.extractCall] }

/-- The cleanup condition of line 322:
`opts['dodelete'] and job.jobdir != None and os.path.exists(job.jobdir)`. -/
def delCond (job : Job) (opts : Opts) (env : Env) : Prop :=
  opts.dodelete = true ∧ job.jobdir ≠ none ∧ env.jobdirExists = true

instance (job : Job) (opts : Opts) (env : Env) : Decidable (delCond job opts env) := by
  unfold delCond; infer_instance

/-- `summarizejob` (lines 203–326): run the `try` block; unless the
extract-only `return` was taken, remove the working directory when the
cleanup condition holds, and return the `success` local.  The second
component is the full event trace of the run. -/
def summarizejob (job : Job) (opts : Opts) (env : Env) : Bool × List Event :=
  match (tryBlock job opts env).retEarly with
  | some v => (v, (tryBlock job opts env).events)
  | none =>
      if delCond job opts env then
        ((tryBlock job opts env).success, (tryBlock job opts env).events ++ [.deleteDir])
      else
        ((tryBlock job opts env).success, (tryBlock job opts env).events)

/-- Option post-processing of `getoptions` lines 159–161: the extract-only
flag suppresses archive deletion. -/
def applyExtractOnlySuppression (opts : Opts) : Opts :=
  if opts.extractonly then { opts with dodelete := false } else opts

/-- The error-code assignments recorded in a trace, in order. -/
def errAssignments (evs : List Event) : List PErr :=
  evs.filterMap (fun e => match e with | .setError x => some x | _ => none)

/-! ## Embedding of the master side of `processjobs` (lines 383–443)

The master pulls jobs from a finite stream, sends each to a worker (the
initial batch goes to workers `1..numworkers` in turn; afterwards each job
goes to whichever worker's completion report was received), drains the
remaining reports, and sends one empty sentinel to every worker.  The
identity of the worker returned by each blocking `comm.recv` is an oracle
`recvSrc`, indexed by the number of reports received so far; the counters and
the ordered list of `comm.send` calls (destination and payload, `none` for
the sentinel) are the model's state. -/

/-- Master-side state: the `numsent`/`numreceived` counters and the ordered
log of `comm.send` calls. -/
structure MState (J : Type) where
  numsent : Nat
  numreceived : Nat
  sends : List (Nat × Option J)

/-- The job-sending loop (lines 402–430): for each job of the stream, either
hand it to the next idle worker of the initial batch (`dest = numsent + 1`)
or wait for a completion report (source given by the `recvSrc` oracle) and
hand it to that worker. -/
def sendLoop {J : Type} (numworkers : Nat) (recvSrc : Nat → Nat) :
    List J → MState J → MState J
  | [], st => st
  | job :: rest, st =>
    if st.numsent ≥ numworkers then
      sendLoop numworkers recvSrc rest
        { numsent := st.numsent + 1, numreceived := st.numreceived + 1,
          sends := st.sends ++ [(recvSrc st.numreceived, some job)] }
    else
      sendLoop numworkers recvSrc rest
        { numsent := st.numsent + 1, numreceived := st.numreceived,
          sends := st.sends ++ [(st.numsent + 1, some job)] }

/-- The drain loop (lines 435–438): `while numsent > numreceived: recv`. -/
def drainLoop (numsent numreceived : Nat) : Nat :=
  if numsent > numreceived then drainLoop numsent (numreceived + 1) else numreceived
termination_by numsent - numreceived
decreasing_by omega

/-- The shutdown messages (lines 441–443): one `None` to each of workers
`1..numworkers`. -/
def shutdownMsgs (J : Type) (numworkers : Nat) : List (Nat × Option J) :=
  (List.range numworkers).map (fun w => (w + 1, none))

/-- Master state after the send and drain phases, starting from zero
counters and an empty send log. -/
def masterAfterDrain (J : Type) (numworkers : Nat) (recvSrc : Nat → Nat)
    (jobs : List J) : MState J :=
  let st := sendLoop numworkers recvSrc jobs ⟨0, 0, []⟩
  { st with numreceived := drainLoop st.numsent st.numreceived }

/-- The full master run: send, drain, then shutdown. -/
def masterRun (J : Type) (numworkers : Nat) (recvSrc : Nat → Nat)
    (jobs : List J) : MState J :=
  let st := masterAfterDrain J numworkers recvSrc jobs
  { st with sends := st.sends ++ shutdownMsgs J numworkers }

/-! ## Dispatcher lemmas and claims -/

lemma sendLoop_received_le {J : Type} (numworkers : Nat) (recvSrc : Nat → Nat) :
    ∀ (l : List J) (st : MState J), st.numreceived ≤ st.numsent →
      (sendLoop numworkers recvSrc l st).numreceived
        ≤ (sendLoop numworkers recvSrc l st).numsent := by
  intro l
  induction l with
  | nil => intro st h; simpa [sendLoop] using h
  | cons job rest ih =>
      intro st h
      unfold sendLoop
      split
      · exact ih _ (by simpa using h)
      · exact ih _ (by simp; omega)

lemma sendLoop_payloads {J : Type} (numworkers : Nat) (recvSrc : Nat → Nat) :
    ∀ (l : List J) (st : MState J),
      (sendLoop numworkers recvSrc l st).sends.filterMap (fun m => m.2)
        = st.sends.filterMap (fun m => m.2) ++ l := by
  intro l
  induction l with
  | nil => intro st; simp [sendLoop]
  | cons job rest ih =>
      intro st
      unfold sendLoop
      split <;> rw [ih] <;> simp

lemma sendLoop_no_sentinel {J : Type} (numworkers : Nat) (recvSrc : Nat → Nat) :
    ∀ (l : List J) (st : MState J),
      (sendLoop numworkers recvSrc l st).sends.filter (fun m => m.2.isNone)
        = st.sends.filter (fun m => m.2.isNone) := by
  intro l
  induction l with
  | nil => intro st; simp [sendLoop]
  | cons job rest ih =>
      intro st
      unfold sendLoop
      split <;> rw [ih] <;> simp

lemma drainLoop_eq_of_le (numsent : Nat) :
    ∀ (numreceived : Nat), numreceived ≤ numsent →
      drainLoop numsent numreceived = numsent := by
  have key : ∀ (k numreceived : Nat), numsent - numreceived = k →
      numreceived ≤ numsent → drainLoop numsent numreceived = numsent := by
    intro k
    induction k with
    | zero =>
        intro r hk hle
        rw [drainLoop]
        have hng : ¬ numsent > r := by omega
        simp only [hng, if_false]
        omega
    | succ n ih =>
        intro r hk hle
        rw [drainLoop]
        have hg : numsent > r := by omega
        simp only [hg, if_true]
        exact ih (r + 1) (by omega) (by omega)
  exact fun r h => key (numsent - r) r rfl h

/-- C6: after the dispatcher's drain phase the counters satisfy
`sent == received`, and in the shutdown phase exactly one sentinel (empty
message) is sent to each of the `numworkers` workers. -/
theorem dispatcher_drain_and_sentinels {J : Type} (numworkers : Nat)
    (recvSrc : Nat → Nat) (jobs : List J) :
    (masterAfterDrain J numworkers recvSrc jobs).numreceived
        = (masterAfterDrain J numworkers recvSrc jobs).numsent
    ∧ (masterRun J numworkers recvSrc jobs).sends.filter (fun m => m.2.isNone)
        = shutdownMsgs J numworkers
    ∧ ∀ w, w < numworkers →
        (((masterRun J numworkers recvSrc jobs).sends.filter
            (fun m => m.2.isNone)).map Prod.fst).count (w + 1) = 1 := by
  have hle : (sendLoop numworkers recvSrc jobs (⟨0, 0, []⟩ : MState J)).numreceived
      ≤ (sendLoop numworkers recvSrc jobs (⟨0, 0, []⟩ : MState J)).numsent :=
    sendLoop_received_le numworkers recvSrc jobs _ (by simp)
  have hdrain : (masterAfterDrain J numworkers recvSrc jobs).numreceived
      = (masterAfterDrain J numworkers recvSrc jobs).numsent := by
    simp only [masterAfterDrain]
    exact drainLoop_eq_of_le _ _ hle
  have hfilter : (masterRun J numworkers recvSrc jobs).sends.filter (fun m => m.2.isNone)
      = shutdownMsgs J numworkers := by
    simp only [masterRun, masterAfterDrain, List.filter_append]
    rw [sendLoop_no_sentinel]
    simp [shutdownMsgs, List.filter_map, Function.comp_def]
  refine ⟨hdrain, hfilter, ?_⟩
  intro w hw
  rw [hfilter]
  have hmap : (shutdownMsgs J numworkers).map Prod.fst
      = (List.range numworkers).map (fun w => w + 1) := by
    simp [shutdownMsgs, List.map_map, Function.comp_def]
  rw [hmap]
  have hnd : ((List.range numworkers).map (fun w => w + 1)).Nodup :=
    (List.nodup_range numworkers).map (fun a b h => by omega)
  have hm : w + 1 ∈ (List.range numworkers).map (fun w => w + 1) :=
    List.mem_map.mpr ⟨w, List.mem_range.mpr hw, rfl⟩
  exact List.count_eq_one_of_mem hnd hm

/-- Closed witness for C6 at a concrete run (three jobs, two workers). -/
theorem dispatcher_drain_and_sentinels_witness :
    (masterAfterDrain Nat 2 (fun _ => 1) [10, 20, 30]).numreceived
        = (masterAfterDrain Nat 2 (fun _ => 1) [10, 20, 30]).numsent
    ∧ (masterRun Nat 2 (fun _ => 1) [10, 20, 30]).sends.filter (fun m => m.2.isNone)
        = shutdownMsgs Nat 2
    ∧ (((masterRun Nat 2 (fun _ => 1) [10, 20, 30]).sends.filter
        (fun m => m.2.isNone)).map Prod.fst).count (0 + 1) = 1 := by
  obtain ⟨h1, h2, h3⟩ := dispatcher_drain_and_sentinels (J := Nat) 2 (fun _ => 1) [10, 20, 30]
  exact ⟨h1, h2, h3 0 (by decide)⟩

/-- C7: every job yielded by the stream is sent to exactly one worker, and the
job payloads appear in the send log exactly in stream order (sentinels carry
no payload, so the payload sequence of the whole run is the job stream). -/
theorem dispatcher_jobs_sent_once_in_order {J : Type} (numworkers : Nat)
    (recvSrc : Nat → Nat) (jobs : List J) :
    (masterRun J numworkers recvSrc jobs).sends.filterMap (fun m => m.2) = jobs := by
  simp only [masterRun, masterAfterDrain, List.filterMap_append]
  rw [sendLoop_payloads]
  simp [shutdownMsgs, List.filterMap_map, Function.comp_def]

/-! ## Lemmas about the per-job pipeline -/

lemma classify_skip_missing {job : Job} {opts : Opts} {r : PErr} {m : Int}
    (h : classify job opts = .Skip r m) : m = job.nodecount := by
  unfold classify at h
  split_ifs at h <;> simp_all

lemma classify_proceed_pos {job : Job} {opts : Opts}
    (h : classify job opts = .Proceed) : 1 ≤ job.nodecount := by
  unfold classify at h
  split_ifs at h <;> simp_all

lemma fdiv_self_eq_one (n : Int) (h : n ≠ 0) : Int.fdiv n n = 1 := by
  rcases n with m | m
  · rcases m with _ | k
    · simp at h
    · show Int.fdiv (Int.ofNat (k + 1)) (Int.ofNat (k + 1)) = 1
      simp [Int.fdiv, Nat.div_self]
  · show Int.fdiv (Int.negSucc m) (Int.negSucc m) = 1
    simp [Int.fdiv]

/-- A skip branch (`mergeresult = 1`, `missingnodes = nodecount`, both ints)
always fails the enough-nodes test: `nodecount / nodecount` is `1` under
Python 2 floor division whenever `nodecount ≠ 0`. -/
lemma enoughNodes_one_self (n : Int) : ¬ enoughNodes 1 (.pint n) n := by
  unfold enoughNodes
  rintro (h | ⟨hn, hlt⟩)
  · exact absurd h (by norm_num)
  · simp only [PyNum.div, fdiv_self_eq_one n hn, PyNum.toQ] at hlt
    norm_num at hlt

lemma tailPhase_events_cases (job : Job) (opts : Opts) (env : Env) (enough : Bool)
    (err1 : Option PErr) :
    ∀ e ∈ (tailPhase job opts env enough err1).events,
      e = .mProcess ∨ e = .goodEnoughCall ∨ e = .setError .SUMMARIZATION_ERROR
        ∨ ∃ s er, e = .markasdone s er := by
  intro e he
  unfold tailPhase at he
  cases henv1 : env.mprocess with
  | error u => rw [henv1] at he; simp at he; tauto
  | ok u =>
    rw [henv1] at he
    cases henv2 : env.good_enough with
    | error v => rw [henv2] at he; simp at he; tauto
    | ok g =>
      rw [henv2] at he
      cases henv3 : env.markdone with
      | ok w =>
        rw [henv3] at he
        simp only [List.mem_append, List.mem_cons, List.mem_singleton] at he
        rcases he with ((h | h) | h) | h
        · tauto
        · simp at h; tauto
        · rcases hb : (!g && enough) with _ | _ <;> rw [hb] at h <;> simp at h; tauto
        · simp at h; exact Or.inr (Or.inr (Or.inr ⟨_, _, h⟩))
      | error w =>
        rw [henv3] at he
        simp only [List.mem_append, List.mem_cons, List.mem_singleton] at he
        rcases he with ((h | h) | h) | h
        · tauto
        · simp at h; tauto
        · rcases hb : (!g && enough) with _ | _ <;> rw [hb] at h <;> simp at h; tauto
        · simp at h; exact Or.inr (Or.inr (Or.inr ⟨_, _, h⟩))

lemma tailPhase_err_of_not_enough (job : Job) (opts : Opts) (env : Env)
    (err1 : Option PErr) :
    (tailPhase job opts env false err1).summarizeerror = err1 := by
  unfold tailPhase
  cases env.mprocess with
  | error u => rfl
  | ok u =>
    cases env.good_enough with
    | error v => rfl
    | ok g => cases env.markdone <;> simp

lemma decideEnough_of_not_enough_some (job : Job) (env : Env) (mr : Int) (mn : PyNum)
    (r : PErr) (h : ¬ enoughNodes mr mn job.nodecount) :
    decideEnough job env mr mn (some r) =
      { enough_nodes := false, raised := false, summarizeerror := some r,
        mdata := [], events := [] } := by
  unfold decideEnough
  rw [if_neg h, if_neg (by simp)]

lemma decideEnough_pmlog (job : Job) (env : Env) (mr : Int) (mn : PyNum)
    (h : ¬ enoughNodes mr mn job.nodecount) (hnc : job.nodecount ≠ 0) :
    decideEnough job env mr mn none =
      { enough_nodes := false, raised := false,
        summarizeerror := some .PMLOGEXTRACT_ERROR,
        mdata := [(skipKey .PMLOGEXTRACT_ERROR, .b true)],
        events := [.setError .PMLOGEXTRACT_ERROR] } := by
  have hge : (mn.div (.pint job.nodecount)).toQ ≥ 0.05 := by
    unfold enoughNodes at h
    push_neg at h
    exact h.2 hnc
  unfold decideEnough
  rw [if_neg h, if_pos ⟨rfl, hnc, hge⟩]

lemma decideEnough_enough_ok (job : Job) (env : Env) (mr : Int) (mn : PyNum)
    (err0 : Option PErr) (h : enoughNodes mr mn job.nodecount)
    (hs : env.sprocess = .ok ()) :
    decideEnough job env mr mn err0 =
      { enough_nodes := true, raised := false, summarizeerror := err0,
        mdata := [], events := [.sProcess] } := by
  unfold decideEnough
  rw [if_pos h, hs]

lemma decideEnough_enough_err (job : Job) (env : Env) (mr : Int) (mn : PyNum)
    (err0 : Option PErr) (h : enoughNodes mr mn job.nodecount)
    (hs : env.sprocess = .error ()) :
    decideEnough job env mr mn err0 =
      { enough_nodes := true, raised := true, summarizeerror := err0,
        mdata := [], events := [.sProcess] } := by
  unfold decideEnough
  rw [if_pos h, hs]

lemma decideEnough_events_cases (job : Job) (env : Env) (mr : Int) (mn : PyNum)
    (err0 : Option PErr) :
    ∀ e ∈ (decideEnough job env mr mn err0).events,
      e = .sProcess ∨ e = .setError .PMLOGEXTRACT_ERROR := by
  unfold decideEnough
  split
  · cases env.sprocess <;> simp
  · split <;> simp

lemma decideEnough_sProcess_iff (job : Job) (env : Env) (mr : Int) (mn : PyNum)
    (err0 : Option PErr) :
    Event.sProcess ∈ (decideEnough job env mr mn err0).events
      ↔ enoughNodes mr mn job.nodecount := by
  unfold decideEnough
  split
  · cases env.sprocess <;> simp_all
  · split <;> simp_all

lemma decideEnough_assignments (job : Job) (env : Env) (mr : Int) (mn : PyNum)
    (err0 : Option PErr) :
    (errAssignments (decideEnough job env mr mn err0).events = []
        ∧ (decideEnough job env mr mn err0).summarizeerror = err0)
    ∨ (errAssignments (decideEnough job env mr mn err0).events = [.PMLOGEXTRACT_ERROR]
        ∧ (decideEnough job env mr mn err0).summarizeerror = some .PMLOGEXTRACT_ERROR
        ∧ err0 = none ∧ (decideEnough job env mr mn err0).enough_nodes = false) := by
  unfold decideEnough
  split
  · cases env.sprocess <;> (left; simp [errAssignments])
  · split
    · rename_i hcond
      right
      exact ⟨by simp [errAssignments], rfl, hcond.1, rfl⟩
    · left; simp [errAssignments]

lemma tailPhase_assignments (job : Job) (opts : Opts) (env : Env) (enough : Bool)
    (err1 : Option PErr) :
    (errAssignments (tailPhase job opts env enough err1).events = []
        ∧ (tailPhase job opts env enough err1).summarizeerror = err1)
    ∨ (errAssignments (tailPhase job opts env enough err1).events
          = [.SUMMARIZATION_ERROR]
        ∧ (tailPhase job opts env enough err1).summarizeerror
          = some .SUMMARIZATION_ERROR
        ∧ enough = true) := by
  unfold tailPhase
  cases env.mprocess with
  | error u => left; simp [errAssignments]
  | ok u =>
    cases env.good_enough with
    | error v => left; simp [errAssignments]
    | ok g =>
      rcases hb : (!g && enough) with _ | _
      · cases env.markdone <;> (left; simp [errAssignments, hb])
      · have he : enough = true := by
          rcases Bool.and_eq_true _ _ |>.mp hb with ⟨_, h2⟩
          exact h2
        cases env.markdone <;>
          (right; exact ⟨by simp [errAssignments, hb], by simp [hb], he⟩)

lemma tailPhase_success_ok (job : Job) (opts : Opts) (env : Env) (enough : Bool)
    (err1 : Option PErr) (g : Bool) (hm : env.mprocess = .ok ())
    (hg : env.good_enough = .ok g) :
    (tailPhase job opts env enough err1).success = g := by
  unfold tailPhase
  rw [hm, hg]
  cases env.markdone <;> simp

lemma tailPhase_success_false_of_gerr (job : Job) (opts : Opts) (env : Env)
    (enough : Bool) (err1 : Option PErr) (hg : env.good_enough = .error ()) :
    (tailPhase job opts env enough err1).success = false := by
  unfold tailPhase
  cases env.mprocess with
  | error u => rfl
  | ok u => rw [hg]

lemma tailPhase_success_false_of_mperr (job : Job) (opts : Opts) (env : Env)
    (enough : Bool) (err1 : Option PErr) (hm : env.mprocess = .error ()) :
    (tailPhase job opts env enough err1).success = false := by
  unfold tailPhase
  rw [hm]

lemma tailPhase_goodEnough_mem (job : Job) (opts : Opts) (env : Env) (enough : Bool)
    (err1 : Option PErr) :
    Event.goodEnoughCall ∈ (tailPhase job opts env enough err1).events
      ↔ env.mprocess = .ok () := by
  unfold tailPhase
  cases env.mprocess with
  | error u => simp
  | ok u =>
    cases env.good_enough with
    | error v => simp
    | ok g =>
      cases env.markdone <;>
        (rcases hb : (!g && enough) with _ | _ <;> simp [hb])

lemma tailPhase_logged_char (job : Job) (opts : Opts) (env : Env) (enough : Bool)
    (err1 : Option PErr) (ls : Bool) (le : Option PErr)
    (h : (tailPhase job opts env enough err1).logged = some (ls, le)) :
    ls = ((tailPhase job opts env enough err1).success
          || (!(tailPhase job opts env enough err1).success
              && decide (env.now - job.end_datetime > opts.force_timeout)))
    ∧ le = (tailPhase job opts env enough err1).summarizeerror := by
  cases hm : env.mprocess with
  | error u =>
    unfold tailPhase at h
    rw [hm] at h
    simp at h
  | ok u =>
    cases hg : env.good_enough with
    | error v =>
      unfold tailPhase at h
      rw [hm, hg] at h
      simp at h
    | ok g =>
      cases hd : env.markdone <;>
        (unfold tailPhase at h ⊢
         rw [hm, hg, hd] at h ⊢
         simp only [Option.some.injEq, Prod.mk.injEq] at h
         exact ⟨by simp [← h.1], by simp [← h.2]⟩)

lemma tailPhase_no_sProcess (job : Job) (opts : Opts) (env : Env) (enough : Bool)
    (err1 : Option PErr) :
    Event.sProcess ∉ (tailPhase job opts env enough err1).events := by
  intro h
  rcases tailPhase_events_cases job opts env enough err1 _ h with h1 | h1 | h1 | ⟨s, er, h1⟩ <;>
    simp at h1

lemma tailPhase_no_extractCall (job : Job) (opts : Opts) (env : Env) (enough : Bool)
    (err1 : Option PErr) :
    Event.extractCall ∉ (tailPhase job opts env enough err1).events := by
  intro h
  rcases tailPhase_events_cases job opts env enough err1 _ h with h1 | h1 | h1 | ⟨s, er, h1⟩ <;>
    simp at h1

lemma tailPhase_no_deleteDir (job : Job) (opts : Opts) (env : Env) (enough : Bool)
    (err1 : Option PErr) :
    Event.deleteDir ∉ (tailPhase job opts env enough err1).events := by
  intro h
  rcases tailPhase_events_cases job opts env enough err1 _ h with h1 | h1 | h1 | ⟨s, er, h1⟩ <;>
    simp at h1

lemma decideEnough_no_extractCall (job : Job) (env : Env) (mr : Int) (mn : PyNum)
    (err0 : Option PErr) :
    Event.extractCall ∉ (decideEnough job env mr mn err0).events := by
  intro h
  rcases decideEnough_events_cases job env mr mn err0 _ h with h1 | h1 <;> simp at h1

lemma decideEnough_no_deleteDir (job : Job) (env : Env) (mr : Int) (mn : PyNum)
    (err0 : Option PErr) :
    Event.deleteDir ∉ (decideEnough job env mr mn err0).events := by
  intro h
  rcases decideEnough_events_cases job env mr mn err0 _ h with h1 | h1 <;> simp at h1

lemma decideEnough_no_goodEnoughCall (job : Job) (env : Env) (mr : Int) (mn : PyNum)
    (err0 : Option PErr) :
    Event.goodEnoughCall ∉ (decideEnough job env mr mn err0).events := by
  intro h
  rcases decideEnough_events_cases job env mr mn err0 _ h with h1 | h1 <;> simp at h1

lemma afterMerge_retEarly_none (job : Job) (opts : Opts) (env : Env) (mr : Int)
    (mn : PyNum) (err0 : Option PErr) (md0 : List (String × MVal)) (ev0 : List Event)
    (hx : opts.extractonly = false) :
    (afterMerge job opts env mr mn err0 md0 ev0).retEarly = none := by
  unfold afterMerge
  rw [if_neg (by simp [hx])]
  split <;> rfl

lemma tryBlock_retEarly_none (job : Job) (opts : Opts) (env : Env)
    (hx : opts.extractonly = false) :
    (tryBlock job opts env).retEarly = none := by
  unfold tryBlock
  cases hc : classify job opts with
  | Skip r m => exact afterMerge_retEarly_none _ _ _ _ _ _ _ _ hx
  | Proceed =>
    cases hext : env.extract with
    | ok r => exact afterMerge_retEarly_none _ _ _ _ _ _ _ _ hx
    | error e => rfl

lemma afterMerge_no_deleteDir (job : Job) (opts : Opts) (env : Env) (mr : Int)
    (mn : PyNum) (err0 : Option PErr) (md0 : List (String × MVal)) (ev0 : List Event)
    (h0 : Event.deleteDir ∉ ev0) :
    Event.deleteDir ∉ (afterMerge job opts env mr mn err0 md0 ev0).events := by
  unfold afterMerge
  split
  · exact h0
  · split
    · intro hmem
      simp only [List.mem_append, List.mem_singleton] at hmem
      rcases hmem with (h | h) | h
      · exact h0 h
      · simp at h
      · exact decideEnough_no_deleteDir job env mr mn err0 h
    · intro hmem
      simp only [List.mem_append, List.mem_singleton] at hmem
      rcases hmem with ((h | h) | h) | h
      · exact h0 h
      · simp at h
      · exact decideEnough_no_deleteDir job env mr mn err0 h
      · exact tailPhase_no_deleteDir job opts env _ _ h

lemma tryBlock_no_deleteDir (job : Job) (opts : Opts) (env : Env) :
    Event.deleteDir ∉ (tryBlock job opts env).events := by
  unfold tryBlock
  cases hc : classify job opts with
  | Skip r m => exact afterMerge_no_deleteDir _ _ _ _ _ _ _ _ (by simp)
  | Proceed =>
    cases hext : env.extract with
    | ok r => exact afterMerge_no_deleteDir _ _ _ _ _ _ _ _ (by simp)
    | error e => simp

lemma summarizejob_fst (job : Job) (opts : Opts) (env : Env)
    (hx : opts.extractonly = false) :
    (summarizejob job opts env).1 = (tryBlock job opts env).success := by
  unfold summarizejob
  rw [tryBlock_retEarly_none job opts env hx]
  by_cases hdel : delCond job opts env <;> simp [hdel]

lemma afterMerge_logged_char (job : Job) (opts : Opts) (env : Env) (mr : Int)
    (mn : PyNum) (err0 : Option PErr) (md0 : List (String × MVal)) (ev0 : List Event)
    (ls : Bool) (le : Option PErr)
    (h : (afterMerge job opts env mr mn err0 md0 ev0).logged = some (ls, le)) :
    ls = ((afterMerge job opts env mr mn err0 md0 ev0).success
          || (!(afterMerge job opts env mr mn err0 md0 ev0).success
              && decide (env.now - job.end_datetime > opts.force_timeout)))
    ∧ le = (afterMerge job opts env mr mn err0 md0 ev0).summarizeerror := by
  by_cases h1 : opts.extractonly = true
  · exfalso
    unfold afterMerge at h
    rw [if_pos h1] at h
    simp at h
  · by_cases h2 : (decideEnough job env mr mn err0).raised = true
    · exfalso
      unfold afterMerge at h
      rw [if_neg h1, if_pos h2] at h
      simp at h
    · unfold afterMerge at h ⊢
      rw [if_neg h1, if_neg h2] at h ⊢
      exact tailPhase_logged_char job opts env
        (decideEnough job env mr mn err0).enough_nodes
        (decideEnough job env mr mn err0).summarizeerror ls le h

lemma tryBlock_logged_char (job : Job) (opts : Opts) (env : Env) (ls : Bool)
    (le : Option PErr) (h : (tryBlock job opts env).logged = some (ls, le)) :
    ls = ((tryBlock job opts env).success
          || (!(tryBlock job opts env).success
              && decide (env.now - job.end_datetime > opts.force_timeout)))
    ∧ le = (tryBlock job opts env).summarizeerror := by
  cases hc : classify job opts with
  | Skip r m =>
    unfold tryBlock at h ⊢
    rw [hc] at h ⊢
    exact afterMerge_logged_char job opts env _ _ _ _ _ ls le h
  | Proceed =>
    cases hext : env.extract with
    | ok r =>
      unfold tryBlock at h ⊢
      rw [hc, hext] at h ⊢
      exact afterMerge_logged_char job opts env _ _ _ _ _ ls le h
    | error e =>
      unfold tryBlock at h
      rw [hc, hext] at h
      simp at h

lemma summarizejob_eq_of_none (job : Job) (opts : Opts) (env : Env)
    (hre : (tryBlock job opts env).retEarly = none) :
    summarizejob job opts env =
      if delCond job opts env then
        ((tryBlock job opts env).success, (tryBlock job opts env).events ++ [.deleteDir])
      else
        ((tryBlock job opts env).success, (tryBlock job opts env).events) := by
  unfold summarizejob
  rw [hre]

lemma summarizejob_eq_of_some (job : Job) (opts : Opts) (env : Env) (v : Bool)
    (hre : (tryBlock job opts env).retEarly = some v) :
    summarizejob job opts env = (v, (tryBlock job opts env).events) := by
  unfold summarizejob
  rw [hre]

lemma summarizejob_events_no (job : Job) (opts : Opts) (env : Env) (e : Event)
    (he : e ≠ Event.deleteDir) (h : e ∉ (tryBlock job opts env).events) :
    e ∉ (summarizejob job opts env).2 := by
  cases hre : (tryBlock job opts env).retEarly with
  | some v => rw [summarizejob_eq_of_some job opts env v hre]; exact h
  | none =>
    rw [summarizejob_eq_of_none job opts env hre]
    by_cases hdel : delCond job opts env
    · rw [if_pos hdel]
      intro hmem
      rcases List.mem_append.mp hmem with h1 | h1
      · exact h h1
      · simp at h1; exact he h1
    · rw [if_neg hdel]; exact h

lemma afterMerge_extractonly (job : Job) (opts : Opts) (env : Env) (mr : Int)
    (mn : PyNum) (err0 : Option PErr) (md0 : List (String × MVal)) (ev0 : List Event)
    (hx : opts.extractonly = true) :
    afterMerge job opts env mr mn err0 md0 ev0
      = { retEarly := some (decide (0 = mr)), raised := false, success := false,
          enough_nodes := false, mergeresult := some mr, missingnodes := some mn,
          summarizeerror := err0, mdata := md0, logged := none, events := ev0 } := by
  unfold afterMerge
  rw [if_pos hx]

lemma afterMerge_mergeresult (job : Job) (opts : Opts) (env : Env) (mr : Int)
    (mn : PyNum) (err0 : Option PErr) (md0 : List (String × MVal)) (ev0 : List Event) :
    (afterMerge job opts env mr mn err0 md0 ev0).mergeresult = some mr := by
  unfold afterMerge
  split_ifs <;> rfl

lemma afterMerge_missingnodes (job : Job) (opts : Opts) (env : Env) (mr : Int)
    (mn : PyNum) (err0 : Option PErr) (md0 : List (String × MVal)) (ev0 : List Event) :
    (afterMerge job opts env mr mn err0 md0 ev0).missingnodes = some mn := by
  unfold afterMerge
  split_ifs <;> rfl

lemma decideEnough_enough_nodes_false (job : Job) (env : Env) (mr : Int) (mn : PyNum)
    (err0 : Option PErr) (hne : ¬ enoughNodes mr mn job.nodecount) :
    (decideEnough job env mr mn err0).enough_nodes = false := by
  unfold decideEnough
  rw [if_neg hne]
  split <;> rfl

lemma afterMerge_enough_nodes_false (job : Job) (opts : Opts) (env : Env) (mr : Int)
    (mn : PyNum) (err0 : Option PErr) (md0 : List (String × MVal)) (ev0 : List Event)
    (hne : ¬ enoughNodes mr mn job.nodecount) :
    (afterMerge job opts env mr mn err0 md0 ev0).enough_nodes = false := by
  unfold afterMerge
  split_ifs
  · rfl
  · exact decideEnough_enough_nodes_false job env mr mn err0 hne
  · exact decideEnough_enough_nodes_false job env mr mn err0 hne

lemma afterMerge_no_extractCall (job : Job) (opts : Opts) (env : Env) (mr : Int)
    (mn : PyNum) (err0 : Option PErr) (md0 : List (String × MVal)) (ev0 : List Event)
    (h0 : Event.extractCall ∉ ev0) :
    Event.extractCall ∉ (afterMerge job opts env mr mn err0 md0 ev0).events := by
  unfold afterMerge
  split
  · exact h0
  · split
    · intro hmem
      simp only [List.mem_append, List.mem_singleton] at hmem
      rcases hmem with (h | h) | h
      · exact h0 h
      · simp at h
      · exact decideEnough_no_extractCall job env mr mn err0 h
    · intro hmem
      simp only [List.mem_append, List.mem_singleton] at hmem
      rcases hmem with ((h | h) | h) | h
      · exact h0 h
      · simp at h
      · exact decideEnough_no_extractCall job env mr mn err0 h
      · exact tailPhase_no_extractCall job opts env _ _ h

lemma afterMerge_no_sProcess_of_not_enough (job : Job) (opts : Opts) (env : Env)
    (mr : Int) (mn : PyNum) (err0 : Option PErr) (md0 : List (String × MVal))
    (ev0 : List Event) (h0 : Event.sProcess ∉ ev0)
    (hne : ¬ enoughNodes mr mn job.nodecount) :
    Event.sProcess ∉ (afterMerge job opts env mr mn err0 md0 ev0).events := by
  unfold afterMerge
  split
  · exact h0
  · split
    · intro hmem
      simp only [List.mem_append, List.mem_singleton] at hmem
      rcases hmem with (h | h) | h
      · exact h0 h
      · simp at h
      · exact hne ((decideEnough_sProcess_iff job env mr mn err0).mp h)
    · intro hmem
      simp only [List.mem_append, List.mem_singleton] at hmem
      rcases hmem with ((h | h) | h) | h
      · exact h0 h
      · simp at h
      · exact hne ((decideEnough_sProcess_iff job env mr mn err0).mp h)
      · exact tailPhase_no_sProcess job opts env _ _ h

lemma afterMerge_sProcess_of_enough (job : Job) (opts : Opts) (env : Env) (mr : Int)
    (mn : PyNum) (err0 : Option PErr) (md0 : List (String × MVal)) (ev0 : List Event)
    (hx : opts.extractonly = false) (he : enoughNodes mr mn job.nodecount) :
    Event.sProcess ∈ (afterMerge job opts env mr mn err0 md0 ev0).events := by
  unfold afterMerge
  rw [if_neg (by simp [hx])]
  by_cases h2 : (decideEnough job env mr mn err0).raised = true
  · rw [if_pos h2]
    exact List.mem_append.mpr (Or.inr ((decideEnough_sProcess_iff job env mr mn err0).mpr he))
  · rw [if_neg h2]
    exact List.mem_append.mpr (Or.inl (List.mem_append.mpr
      (Or.inr ((decideEnough_sProcess_iff job env mr mn err0).mpr he))))

lemma afterMerge_err_of_not_enough_none (job : Job) (opts : Opts) (env : Env)
    (mr : Int) (mn : PyNum) (md0 : List (String × MVal)) (ev0 : List Event)
    (hx : opts.extractonly = false) (hne : ¬ enoughNodes mr mn job.nodecount)
    (hnc : job.nodecount ≠ 0) :
    (afterMerge job opts env mr mn none md0 ev0).summarizeerror
      = some .PMLOGEXTRACT_ERROR := by
  have hd := decideEnough_pmlog job env mr mn hne hnc
  have hraised : ¬ (decideEnough job env mr mn none).raised = true := by rw [hd]; simp
  unfold afterMerge
  rw [if_neg (by simp [hx]), if_neg hraised, hd]
  exact tailPhase_err_of_not_enough job opts env (some .PMLOGEXTRACT_ERROR)

lemma decideEnough_none_zero (job : Job) (env : Env) (mr : Int) (mn : PyNum)
    (hne : ¬ enoughNodes mr mn job.nodecount) (h0 : job.nodecount = 0) :
    decideEnough job env mr mn none =
      { enough_nodes := false, raised := false, summarizeerror := none,
        mdata := [], events := [] } := by
  unfold decideEnough
  rw [if_neg hne, if_neg (by simp [h0])]

lemma afterMerge_assignments_skip (job : Job) (opts : Opts) (env : Env) (mr : Int)
    (mn : PyNum) (r : PErr) (md0 : List (String × MVal)) (ev0 : List Event)
    (hne : ¬ enoughNodes mr mn job.nodecount) :
    errAssignments (afterMerge job opts env mr mn (some r) md0 ev0).events
        = errAssignments ev0
    ∧ (afterMerge job opts env mr mn (some r) md0 ev0).summarizeerror = some r := by
  by_cases hx : opts.extractonly = true
  · rw [afterMerge_extractonly job opts env mr mn (some r) md0 ev0 hx]
    exact ⟨rfl, rfl⟩
  · have hd := decideEnough_of_not_enough_some job env mr mn r hne
    have hraised : ¬ (decideEnough job env mr mn (some r)).raised = true := by
      rw [hd]; simp
    unfold afterMerge
    rw [if_neg hx, if_neg hraised, hd]
    rcases tailPhase_assignments job opts env false (some r) with ⟨hA, hE⟩ | ⟨hA, hE, het⟩
    · constructor
      · simp_all [errAssignments, List.filterMap_append]
      · simpa using hE
    · simp at het

lemma afterMerge_assignments_proceed (job : Job) (opts : Opts) (env : Env) (mr : Int)
    (mn : PyNum) (md0 : List (String × MVal)) (ev0 : List Event) :
    ∃ t2 : List PErr,
      errAssignments (afterMerge job opts env mr mn none md0 ev0).events
          = errAssignments ev0 ++ t2
      ∧ t2.length ≤ 1
      ∧ (afterMerge job opts env mr mn none md0 ev0).summarizeerror = t2.head? := by
  by_cases hx : opts.extractonly = true
  · rw [afterMerge_extractonly job opts env mr mn none md0 ev0 hx]
    exact ⟨[], by simp, by simp, rfl⟩
  · by_cases he : enoughNodes mr mn job.nodecount
    · cases hs : env.sprocess with
      | error u =>
        cases u
        have hd := decideEnough_enough_err job env mr mn none he hs
        have hraised : (decideEnough job env mr mn none).raised = true := by
          rw [hd]
        unfold afterMerge
        rw [if_neg hx, if_pos hraised, hd]
        refine ⟨[], ?_, by simp, rfl⟩
        simp [errAssignments, List.filterMap_append]
      | ok u =>
        cases u
        have hd := decideEnough_enough_ok job env mr mn none he hs
        have hraised : ¬ (decideEnough job env mr mn none).raised = true := by
          rw [hd]; simp
        unfold afterMerge
        rw [if_neg hx, if_neg hraised, hd]
        rcases tailPhase_assignments job opts env true none with ⟨hA, hE⟩ | ⟨hA, hE, _⟩
        · refine ⟨[], ?_, by simp, by simpa using hE⟩
          simp_all [errAssignments, List.filterMap_append]
        · refine ⟨[.SUMMARIZATION_ERROR], ?_, by simp, by simpa using hE⟩
          simp_all [errAssignments, List.filterMap_append]
    · by_cases h0 : job.nodecount = 0
      · have hd := decideEnough_none_zero job env mr mn he h0
        have hraised : ¬ (decideEnough job env mr mn none).raised = true := by
          rw [hd]; simp
        unfold afterMerge
        rw [if_neg hx, if_neg hraised, hd]
        rcases tailPhase_assignments job opts env false none with ⟨hA, hE⟩ | ⟨hA, hE, het⟩
        · refine ⟨[], ?_, by simp, by simpa using hE⟩
          simp_all [errAssignments, List.filterMap_append]
        · simp at het
      · have hd := decideEnough_pmlog job env mr mn he h0
        have hraised : ¬ (decideEnough job env mr mn none).raised = true := by
          rw [hd]; simp
        unfold afterMerge
        rw [if_neg hx, if_neg hraised, hd]
        rcases tailPhase_assignments job opts env false (some .PMLOGEXTRACT_ERROR)
          with ⟨hA, hE⟩ | ⟨hA, hE, het⟩
        · refine ⟨[.PMLOGEXTRACT_ERROR], ?_, by simp, by simpa using hE⟩
          simp_all [errAssignments, List.filterMap_append]
        · simp at het

lemma afterMerge_success_char (job : Job) (opts : Opts) (env : Env) (mr : Int)
    (mn : PyNum) (err0 : Option PErr) (md0 : List (String × MVal)) (ev0 : List Event)
    (h0 : Event.goodEnoughCall ∉ ev0) :
    (∀ g, Event.goodEnoughCall ∈ (afterMerge job opts env mr mn err0 md0 ev0).events →
        env.good_enough = .ok g →
        (afterMerge job opts env mr mn err0 md0 ev0).success = g)
    ∧ (Event.goodEnoughCall ∉ (afterMerge job opts env mr mn err0 md0 ev0).events →
        (afterMerge job opts env mr mn err0 md0 ev0).success = false)
    ∧ (env.good_enough = .error () →
        (afterMerge job opts env mr mn err0 md0 ev0).success = false) := by
  by_cases h1 : opts.extractonly = true
  · rw [afterMerge_extractonly job opts env mr mn err0 md0 ev0 h1]
    exact ⟨fun g hmem hg => absurd hmem h0, fun _ => rfl, fun _ => rfl⟩
  · by_cases h2 : (decideEnough job env mr mn err0).raised = true
    · unfold afterMerge
      rw [if_neg h1, if_pos h2]
      refine ⟨?_, fun _ => rfl, fun _ => rfl⟩
      intro g hmem hg
      exfalso
      simp only [List.mem_append, List.mem_singleton] at hmem
      rcases hmem with (h | h) | h
      · exact h0 h
      · simp at h
      · exact decideEnough_no_goodEnoughCall job env mr mn err0 h
    · unfold afterMerge
      rw [if_neg h1, if_neg h2]
      refine ⟨?_, ?_, ?_⟩
      · intro g hmem hg
        have hmem2 : Event.goodEnoughCall ∈ (tailPhase job opts env
            (decideEnough job env mr mn err0).enough_nodes
            (decideEnough job env mr mn err0).summarizeerror).events := by
          simp only [List.mem_append, List.mem_singleton] at hmem
          rcases hmem with ((h | h) | h) | h
          · exact absurd h h0
          · simp at h
          · exact absurd h (decideEnough_no_goodEnoughCall job env mr mn err0)
          · exact h
        have hmp := (tailPhase_goodEnough_mem job opts env _ _).mp hmem2
        exact tailPhase_success_ok job opts env _ _ g hmp hg
      · intro hmem
        have hnt : Event.goodEnoughCall ∉ (tailPhase job opts env
            (decideEnough job env mr mn err0).enough_nodes
            (decideEnough job env mr mn err0).summarizeerror).events := by
          intro hin
          exact hmem (List.mem_append.mpr (Or.inr hin))
        cases hmp : env.mprocess with
        | ok u =>
          cases u
          exact absurd ((tailPhase_goodEnough_mem job opts env _ _).mpr hmp) hnt
        | error u =>
          cases u
          exact tailPhase_success_false_of_mperr job opts env _ _ hmp
      · intro hg
        exact tailPhase_success_false_of_gerr job opts env _ _ hg

lemma tryBlock_eq_skip (job : Job) (opts : Opts) (env : Env) (r : PErr) (m : Int)
    (hc : classify job opts = .Skip r m) :
    tryBlock job opts env
      = afterMerge job opts env 1 (.pint m) (some r)
          [(skipKey r, .b true)] [.setError r] := by
  unfold tryBlock
  rw [hc]

lemma tryBlock_eq_proceed_ok (job : Job) (opts : Opts) (env : Env) (r : Int)
    (hc : classify job opts = .Proceed) (hext : env.extract = .ok r) :
    tryBlock job opts env
      = afterMerge job opts env r (.pfloat (-(r : ℚ))) none [] [.extractCall] := by
  unfold tryBlock
  rw [hc, hext]

lemma tryBlock_eq_proceed_err (job : Job) (opts : Opts) (env : Env)
    (hc : classify job opts = .Proceed) (hext : env.extract = .error ()) :
    tryBlock job opts env
      = { retEarly := none, raised := true, success := false, enough_nodes := false,
          mergeresult := none, missingnodes := none, summarizeerror := none,
          mdata := [], logged := none, events := [.extractCall] } := by
  unfold tryBlock
  rw [hc, hext]

lemma tryBlock_success_char (job : Job) (opts : Opts) (env : Env) :
    (∀ g, Event.goodEnoughCall ∈ (tryBlock job opts env).events →
        env.good_enough = .ok g → (tryBlock job opts env).success = g)
    ∧ (Event.goodEnoughCall ∉ (tryBlock job opts env).events →
        (tryBlock job opts env).success = false)
    ∧ (env.good_enough = .error () → (tryBlock job opts env).success = false) := by
  cases hc : classify job opts with
  | Skip r m =>
    rw [tryBlock_eq_skip job opts env r m hc]
    exact afterMerge_success_char job opts env _ _ _ _ _ (by simp)
  | Proceed =>
    cases hext : env.extract with
    | ok r =>
      rw [tryBlock_eq_proceed_ok job opts env r hc hext]
      exact afterMerge_success_char job opts env _ _ _ _ _ (by simp)
    | error e =>
      cases e
      rw [tryBlock_eq_proceed_err job opts env hc hext]
      refine ⟨?_, fun _ => rfl, fun _ => rfl⟩
      intro g hmem hg
      simp at hmem

lemma tryBlock_assignments (job : Job) (opts : Opts) (env : Env) :
    (errAssignments (tryBlock job opts env).events).length ≤ 1
    ∧ (tryBlock job opts env).summarizeerror
        = (errAssignments (tryBlock job opts env).events).head? := by
  cases hc : classify job opts with
  | Skip r m =>
    have hm : m = job.nodecount := classify_skip_missing hc
    subst hm
    rw [tryBlock_eq_skip job opts env r job.nodecount hc]
    obtain ⟨hA, hE⟩ := afterMerge_assignments_skip job opts env 1 (.pint job.nodecount) r
      [(skipKey r, .b true)] [.setError r] (enoughNodes_one_self job.nodecount)
    rw [hA, hE]
    exact ⟨by simp [errAssignments], by simp [errAssignments]⟩
  | Proceed =>
    cases hext : env.extract with
    | error e =>
      cases e
      rw [tryBlock_eq_proceed_err job opts env hc hext]
      exact ⟨by simp [errAssignments], by simp [errAssignments]⟩
    | ok r =>
      rw [tryBlock_eq_proceed_ok job opts env r hc hext]
      obtain ⟨t2, hA, hlen, hE⟩ := afterMerge_assignments_proceed job opts env r
        (.pfloat (-(r : ℚ))) [] [.extractCall]
      rw [hA, hE]
      constructor
      · simpa [errAssignments] using hlen
      · simp [errAssignments]

/-! ## Claims about the per-job pipeline -/

/-- C2: a job that reaches the outcome decision (the `try` block is past
extraction, so `mergeresult` and `missingnodes` are assigned) invokes the
analysis engine's `process()` exactly when the enough-nodes predicate holds;
when the predicate fails and no error code is set yet (classification was
`Proceed`), the error code becomes `PMLOGEXTRACT_ERROR` and analysis is not
invoked. -/
theorem analysis_iff_enough_nodes (job : Job) (opts : Opts) (env : Env) (mr : Int)
    (mn : PyNum) (hx : opts.extractonly = false)
    (hmr : (tryBlock job opts env).mergeresult = some mr)
    (hmn : (tryBlock job opts env).missingnodes = some mn) :
    (Event.sProcess ∈ (tryBlock job opts env).events
      ↔ enoughNodes mr mn job.nodecount)
    ∧ (¬ enoughNodes mr mn job.nodecount → classify job opts = .Proceed →
        (tryBlock job opts env).summarizeerror = some .PMLOGEXTRACT_ERROR
        ∧ Event.sProcess ∉ (tryBlock job opts env).events) := by
  cases hc : classify job opts with
  | Skip r m =>
    have hm : m = job.nodecount := classify_skip_missing hc
    subst hm
    rw [tryBlock_eq_skip job opts env r job.nodecount hc] at hmr hmn ⊢
    have hmr1 : mr = 1 := by
      rw [afterMerge_mergeresult] at hmr
      exact (Option.some.inj hmr).symm
    have hmn1 : mn = .pint job.nodecount := by
      rw [afterMerge_missingnodes] at hmn
      exact (Option.some.inj hmn).symm
    subst hmr1
    subst hmn1
    have hne := enoughNodes_one_self job.nodecount
    constructor
    · constructor
      · intro hmem
        exact absurd hmem (afterMerge_no_sProcess_of_not_enough job opts env _ _ _ _ _
          (by simp) hne)
      · intro he
        exact absurd he hne
    · intro _ hp
      exact absurd hp (by simp [hc])
  | Proceed =>
    cases hext : env.extract with
    | error e =>
      cases e
      rw [tryBlock_eq_proceed_err job opts env hc hext] at hmr
      simp at hmr
    | ok r =>
      rw [tryBlock_eq_proceed_ok job opts env r hc hext] at hmr hmn ⊢
      have hmr1 : mr = r := by
        rw [afterMerge_mergeresult] at hmr
        exact (Option.some.inj hmr).symm
      have hmn1 : mn = .pfloat (-(r : ℚ)) := by
        rw [afterMerge_missingnodes] at hmn
        exact (Option.some.inj hmn).symm
      subst hmr1
      subst hmn1
      have hnc0 : job.nodecount ≠ 0 := by
        have := classify_proceed_pos hc
        omega
      by_cases he : enoughNodes mr (.pfloat (-(mr : ℚ))) job.nodecount
      · refine ⟨⟨fun _ => he, fun _ => ?_⟩, fun hne _ => absurd he hne⟩
        exact afterMerge_sProcess_of_enough job opts env _ _ _ _ _ hx he
      · refine ⟨⟨fun hmem => ?_, fun hee => absurd hee he⟩, fun _ _ => ⟨?_, ?_⟩⟩
        · exact absurd hmem (afterMerge_no_sProcess_of_not_enough job opts env _ _ _ _ _
            (by simp) he)
        · exact afterMerge_err_of_not_enough_none job opts env _ _ _ _ hx he hnc0
        · exact afterMerge_no_sProcess_of_not_enough job opts env _ _ _ _ _ (by simp) he

/-- C3: when the `success` local is still false at the grace-period check, the
job is logged as done (`markasdone` success argument forced true) exactly when
`now - jobEndTime` strictly exceeds the grace period, with the already-assigned
error code passed unchanged; otherwise it is logged as not-done. -/
theorem grace_period_forces_done (job : Job) (opts : Opts) (env : Env) (ls : Bool)
    (le : Option PErr)
    (hlog : (tryBlock job opts env).logged = some (ls, le))
    (hfail : (tryBlock job opts env).success = false) :
    (env.now - job.end_datetime > opts.force_timeout →
        ls = true ∧ le = (tryBlock job opts env).summarizeerror)
    ∧ (env.now - job.end_datetime ≤ opts.force_timeout → ls = false) := by
  obtain ⟨h1, h2⟩ := tryBlock_logged_char job opts env ls le hlog
  rw [hfail] at h1
  simp at h1
  constructor
  · intro hgt
    refine ⟨?_, h2⟩
    rw [h1]
    exact decide_eq_true hgt
  · intro hle
    rw [h1]
    simp
    omega

/-- C4: the error code is assigned at most once per run of the Job Runner and
is never overwritten: the trace of `summarizeerror` assignments has length at
most one, and the final error code is exactly the (unique) assignment when one
happened. -/
theorem error_code_assigned_at_most_once (job : Job) (opts : Opts) (env : Env) :
    (errAssignments (summarizejob job opts env).2).length ≤ 1
    ∧ (tryBlock job opts env).summarizeerror
        = (errAssignments (tryBlock job opts env).events).head? := by
  obtain ⟨h1, h2⟩ := tryBlock_assignments job opts env
  refine ⟨?_, h2⟩
  cases hre : (tryBlock job opts env).retEarly with
  | some v =>
    rw [summarizejob_eq_of_some job opts env v hre]
    exact h1
  | none =>
    rw [summarizejob_eq_of_none job opts env hre]
    by_cases hdel : delCond job opts env
    · rw [if_pos hdel]
      simpa [errAssignments, List.filterMap_append] using h1
    · rw [if_neg hdel]
      exact h1

/-- C5: a job classified as Skip never triggers the extraction call nor the
analysis engine's `process()`; the skip branch sets `mergeresult = 1` and
`missingnodes = nodecount`, which forces the enough-nodes predicate false. -/
theorem skip_no_extract_no_analysis (job : Job) (opts : Opts) (env : Env)
    (reason : PErr) (mn : Int) (hc : classify job opts = .Skip reason mn) :
    Event.extractCall ∉ (summarizejob job opts env).2
    ∧ Event.sProcess ∉ (summarizejob job opts env).2
    ∧ (tryBlock job opts env).mergeresult = some 1
    ∧ (tryBlock job opts env).missingnodes = some (.pint job.nodecount)
    ∧ ¬ enoughNodes 1 (.pint job.nodecount) job.nodecount
    ∧ (tryBlock job opts env).enough_nodes = false := by
  have hm : mn = job.nodecount := classify_skip_missing hc
  subst hm
  have hne := enoughNodes_one_self job.nodecount
  have ht := tryBlock_eq_skip job opts env reason job.nodecount hc
  refine ⟨?_, ?_, ?_, ?_, hne, ?_⟩
  · apply summarizejob_events_no job opts env _ (by simp)
    rw [ht]
    exact afterMerge_no_extractCall job opts env _ _ _ _ _ (by simp)
  · apply summarizejob_events_no job opts env _ (by simp)
    rw [ht]
    exact afterMerge_no_sProcess_of_not_enough job opts env _ _ _ _ _ (by simp) hne
  · rw [ht]
    exact afterMerge_mergeresult job opts env _ _ _ _ _
  · rw [ht]
    exact afterMerge_missingnodes job opts env _ _ _ _ _
  · rw [ht]
    exact afterMerge_enough_nodes_false job opts env _ _ _ _ _ hne

/-- C8: with the extract-only flag set (and the option post-processing of
`getoptions` applied, which disables deletion), the Job Runner returns right
after classification/extraction with the value `0 == mergeresult`, never
constructs or invokes the analysis engine, never calls the outcome logger and
never deletes the working directory. -/
theorem extractonly_short_circuit (job : Job) (opts : Opts) (env : Env)
    (hx : opts.extractonly = true) :
    (applyExtractOnlySuppression opts).dodelete = false
    ∧ (∀ mr, (tryBlock job (applyExtractOnlySuppression opts) env).mergeresult = some mr →
        (summarizejob job (applyExtractOnlySuppression opts) env).1 = decide (0 = mr))
    ∧ Event.summarizeCreate ∉ (summarizejob job (applyExtractOnlySuppression opts) env).2
    ∧ Event.sProcess ∉ (summarizejob job (applyExtractOnlySuppression opts) env).2
    ∧ Event.mProcess ∉ (summarizejob job (applyExtractOnlySuppression opts) env).2
    ∧ Event.goodEnoughCall ∉ (summarizejob job (applyExtractOnlySuppression opts) env).2
    ∧ (∀ s er, Event.markasdone s er
        ∉ (summarizejob job (applyExtractOnlySuppression opts) env).2)
    ∧ Event.deleteDir ∉ (summarizejob job (applyExtractOnlySuppression opts) env).2 := by
  have hA : applyExtractOnlySuppression opts = { opts with dodelete := false } := by
    unfold applyExtractOnlySuppression
    rw [if_pos hx]
  have hx2 : (applyExtractOnlySuppression opts).extractonly = true := by
    rw [hA]; exact hx
  have hdd : (applyExtractOnlySuppression opts).dodelete = false := by
    rw [hA]
  refine ⟨hdd, ?_⟩
  cases hc : classify job (applyExtractOnlySuppression opts) with
  | Skip r m =>
    have ht := tryBlock_eq_skip job (applyExtractOnlySuppression opts) env r m hc
    rw [afterMerge_extractonly job (applyExtractOnlySuppression opts) env 1 (.pint m)
      (some r) [(skipKey r, .b true)] [.setError r] hx2] at ht
    have hsum := summarizejob_eq_of_some job (applyExtractOnlySuppression opts) env
      (decide ((0 : Int) = 1)) (by rw [ht])
    rw [hsum, ht]
    refine ⟨?_, by simp, by simp, by simp, by simp, by simp, by simp⟩
    intro mr hmr
    simp at hmr
    subst hmr
    rfl
  | Proceed =>
    cases hext : env.extract with
    | ok r =>
      have ht := tryBlock_eq_proceed_ok job (applyExtractOnlySuppression opts) env r hc hext
      rw [afterMerge_extractonly job (applyExtractOnlySuppression opts) env r
        (.pfloat (-(r : ℚ))) none [] [.extractCall] hx2] at ht
      have hsum := summarizejob_eq_of_some job (applyExtractOnlySuppression opts) env
        (decide (0 = r)) (by rw [ht])
      rw [hsum, ht]
      refine ⟨?_, by simp, by simp, by simp, by simp, by simp, by simp⟩
      intro mr hmr
      simp at hmr
      subst hmr
      rfl
    | error e =>
      cases e
      have ht := tryBlock_eq_proceed_err job (applyExtractOnlySuppression opts) env hc hext
      have hdel : ¬ delCond job (applyExtractOnlySuppression opts) env := by
        simp [delCond, hdd]
      have hsum := summarizejob_eq_of_none job (applyExtractOnlySuppression opts) env
        (by rw [ht])
      rw [if_neg hdel] at hsum
      rw [hsum, ht]
      refine ⟨?_, by simp, by simp, by simp, by simp, by simp, by simp⟩
      intro mr hmr
      simp at hmr

/-- C9: the working directory is removed exactly once, as the last step after
outcome logging, precisely when deletion is enabled and the directory exists
(under the `getoptions` guarantee that extract-only disables deletion);
otherwise it is never removed. -/
theorem cleanup_exactly_once_after_logging (job : Job) (opts : Opts) (env : Env)
    (hgo : opts.extractonly = true → opts.dodelete = false) :
    (delCond job opts env →
        ∃ evs, (summarizejob job opts env).2 = evs ++ [Event.deleteDir]
          ∧ Event.deleteDir ∉ evs)
    ∧ (¬ delCond job opts env → Event.deleteDir ∉ (summarizejob job opts env).2) := by
  constructor
  · intro hdel
    have hdd : opts.dodelete = true := hdel.1
    have hx : opts.extractonly = false := by
      by_cases hb : opts.extractonly = true
      · rw [hgo hb] at hdd; cases hdd
      · revert hb; cases opts.extractonly <;> simp
    refine ⟨(tryBlock job opts env).events, ?_, tryBlock_no_deleteDir job opts env⟩
    rw [summarizejob_eq_of_none job opts env (tryBlock_retEarly_none job opts env hx),
      if_pos hdel]
  · intro hnot
    cases hre : (tryBlock job opts env).retEarly with
    | some v =>
      rw [summarizejob_eq_of_some job opts env v hre]
      exact tryBlock_no_deleteDir job opts env
    | none =>
      rw [summarizejob_eq_of_none job opts env hre, if_neg hnot]
      exact tryBlock_no_deleteDir job opts env

/-- C10: for a run that is not extract-only, the value `summarizejob` returns
is exactly the analysis engine's `good_enough()` verdict when that call
returned one, and false whenever the verdict was never computed (not reached,
or the call raised); the grace-period forcing only affects the success
argument passed to `markasdone`, never the return value. -/
theorem return_value_is_good_enough (job : Job) (opts : Opts) (env : Env)
    (hx : opts.extractonly = false) :
    (∀ g, Event.goodEnoughCall ∈ (tryBlock job opts env).events →
        env.good_enough = .ok g → (summarizejob job opts env).1 = g)
    ∧ (Event.goodEnoughCall ∉ (tryBlock job opts env).events →
        (summarizejob job opts env).1 = false)
    ∧ (env.good_enough = .error () → (summarizejob job opts env).1 = false)
    ∧ (∀ ls le, (tryBlock job opts env).logged = some (ls, le) →
        ls = ((summarizejob job opts env).1
          || (!(summarizejob job opts env).1
              && decide (env.now - job.end_datetime > opts.force_timeout)))) := by
  obtain ⟨ha, hb, hcq⟩ := tryBlock_success_char job opts env
  rw [summarizejob_fst job opts env hx]
  refine ⟨ha, hb, hcq, ?_⟩
  intro ls le hlog
  exact (tryBlock_logged_char job opts env ls le hlog).1

/-! ## Concrete fixtures for the claim witnesses -/

/-- A well-formed single-node job that classifies as `Proceed`. -/
def jobW : Job :=
  { nodecount := 1, walltime := 3600, has_any_archives := true,
    has_enough_raw_archives := true, end_datetime := 0, jobdir := some "jobdir" }

/-- A short job that classifies as `Skip TIME_TOO_SHORT`. -/
def jobSkip : Job :=
  { nodecount := 1, walltime := 100, has_any_archives := true,
    has_enough_raw_archives := true, end_datetime := 0, jobdir := some "jobdir" }

/-- Default options: no node cap, no extract-only, deletion on, default
grace period. -/
def optsW : Opts :=
  { max_nodes := 0, extractonly := false, dodelete := true,
    force_timeout := 172800, tag := none }

/-- Extract-only options before the `getoptions` suppression step. -/
def optsE : Opts :=
  { max_nodes := 0, extractonly := true, dodelete := true,
    force_timeout := 172800, tag := none }

/-- Oracle: extraction fully succeeds, the analysis engine runs but reports
not-good-enough, and the job ended long before `now`. -/
def envW : Env :=
  { extract := .ok 0, sprocess := .ok (), mprocess := .ok (),
    good_enough := .ok false, markdone := .ok (), now := 10000000,
    mergetime := 0, jobdirExists := true }

/-- Closed witness for C2 at a concrete proceed job whose extraction fully
succeeds. -/
theorem analysis_iff_enough_nodes_witness :
    (optsW.extractonly = false
      ∧ (tryBlock jobW optsW envW).mergeresult = some 0
      ∧ (tryBlock jobW optsW envW).missingnodes = some (.pfloat (-(0 : ℚ))))
    ∧ ((Event.sProcess ∈ (tryBlock jobW optsW envW).events
          ↔ enoughNodes 0 (.pfloat (-(0 : ℚ))) jobW.nodecount)
        ∧ (¬ enoughNodes 0 (.pfloat (-(0 : ℚ))) jobW.nodecount →
            classify jobW optsW = .Proceed →
            (tryBlock jobW optsW envW).summarizeerror = some .PMLOGEXTRACT_ERROR
            ∧ Event.sProcess ∉ (tryBlock jobW optsW envW).events)) :=
  ⟨⟨by decide, by decide, by decide⟩,
    analysis_iff_enough_nodes jobW optsW envW 0 (.pfloat (-(0 : ℚ)))
      (by decide) (by decide) (by decide)⟩

/-- Closed witness for C3: a failed summarization well past the grace period
is logged as done with its error code preserved. -/
theorem grace_period_forces_done_witness :
    ((tryBlock jobW optsW envW).logged = some (true, some .SUMMARIZATION_ERROR)
      ∧ (tryBlock jobW optsW envW).success = false)
    ∧ ((envW.now - jobW.end_datetime > optsW.force_timeout →
          true = true
          ∧ some PErr.SUMMARIZATION_ERROR = (tryBlock jobW optsW envW).summarizeerror)
        ∧ (envW.now - jobW.end_datetime ≤ optsW.force_timeout → true = false)) :=
  ⟨⟨by decide, by decide⟩,
    grace_period_forces_done jobW optsW envW true (some .SUMMARIZATION_ERROR)
      (by decide) (by decide)⟩

/-- Closed witness for C5 at a job skipped as `TIME_TOO_SHORT`. -/
theorem skip_no_extract_no_analysis_witness :
    (classify jobSkip optsW = .Skip .TIME_TOO_SHORT 1)
    ∧ (Event.extractCall ∉ (summarizejob jobSkip optsW envW).2
        ∧ Event.sProcess ∉ (summarizejob jobSkip optsW envW).2
        ∧ (tryBlock jobSkip optsW envW).mergeresult = some 1
        ∧ (tryBlock jobSkip optsW envW).missingnodes
            = some (.pint jobSkip.nodecount)
        ∧ ¬ enoughNodes 1 (.pint jobSkip.nodecount) jobSkip.nodecount
        ∧ (tryBlock jobSkip optsW envW).enough_nodes = false) :=
  ⟨by decide,
    skip_no_extract_no_analysis jobSkip optsW envW .TIME_TOO_SHORT 1 (by decide)⟩

/-- Closed witness for C8 at a proceed job run under extract-only options. -/
theorem extractonly_short_circuit_witness :
    (optsE.extractonly = true)
    ∧ ((applyExtractOnlySuppression optsE).dodelete = false
      ∧ (∀ mr, (tryBlock jobW (applyExtractOnlySuppression optsE) envW).mergeresult
            = some mr →
          (summarizejob jobW (applyExtractOnlySuppression optsE) envW).1
            = decide (0 = mr))
      ∧ Event.summarizeCreate
          ∉ (summarizejob jobW (applyExtractOnlySuppression optsE) envW).2
      ∧ Event.sProcess ∉ (summarizejob jobW (applyExtractOnlySuppression optsE) envW).2
      ∧ Event.mProcess ∉ (summarizejob jobW (applyExtractOnlySuppression optsE) envW).2
      ∧ Event.goodEnoughCall
          ∉ (summarizejob jobW (applyExtractOnlySuppression optsE) envW).2
      ∧ (∀ s er, Event.markasdone s er
          ∉ (summarizejob jobW (applyExtractOnlySuppression optsE) envW).2)
      ∧ Event.deleteDir
          ∉ (summarizejob jobW (applyExtractOnlySuppression optsE) envW).2) :=
  ⟨by decide, extractonly_short_circuit jobW optsE envW (by decide)⟩

/-- Closed witness for C9 at a run with deletion enabled and the directory
present. -/
theorem cleanup_exactly_once_after_logging_witness :
    (optsW.extractonly = true → optsW.dodelete = false)
    ∧ ((delCond jobW optsW envW →
          ∃ evs, (summarizejob jobW optsW envW).2 = evs ++ [Event.deleteDir]
            ∧ Event.deleteDir ∉ evs)
        ∧ (¬ delCond jobW optsW envW →
            Event.deleteDir ∉ (summarizejob jobW optsW envW).2)) :=
  ⟨by decide, cleanup_exactly_once_after_logging jobW optsW envW (by decide)⟩

/-- Closed witness for C10: the run returns `good_enough()`'s verdict (false)
even though the grace period forces the logged success to true. -/
theorem return_value_is_good_enough_witness :
    (optsW.extractonly = false)
    ∧ ((∀ g, Event.goodEnoughCall ∈ (tryBlock jobW optsW envW).events →
          envW.good_enough = .ok g → (summarizejob jobW optsW envW).1 = g)
      ∧ (Event.goodEnoughCall ∉ (tryBlock jobW optsW envW).events →
          (summarizejob jobW optsW envW).1 = false)
      ∧ (envW.good_enough = .error () → (summarizejob jobW optsW envW).1 = false)
      ∧ (∀ ls le, (tryBlock jobW optsW envW).logged = some (ls, le) →
          ls = ((summarizejob jobW optsW envW).1
            || (!(summarizejob jobW optsW envW).1
                && decide (envW.now - jobW.end_datetime > optsW.force_timeout))))) :=
  ⟨by decide, return_value_is_good_enough jobW optsW envW (by decide)⟩

end Supremm
